import Mathlib

/-!
Shallow embedding of the matrix / softmax engine of the
NN-Activation-Functions repository (src/comment.c, src/nn_func.c).

The source is a row-pointer matrix of doubles together with:
zero-initialising `create_matrix` (with the `rows <= 0 OR cols <= 0`
validation of the detailed variant), elementwise mapping
(`apply_function_elementwise`), `hadamard_product`,
`apply_softmax_to_vector` (max-shifted softmax over a `1×N` or `N×1`
matrix), `apply_softmax_batch` over rows (`axis == 1`) or columns
(any other axis), and the row/column extract/insert helpers.

Embedding conventions:
* matrix `data` is a total function `ℕ → ℕ → ℝ`; a freshly created
  matrix is `0` everywhere, matching the source's zero initialisation,
  and cells outside `rows × cols` simply stay `0`;
* doubles are embedded as exact reals, `exp` as `Real.exp`
  (the machine's unbounded integers make the source's
  `rows × cols would overflow integer` check unreachable, so it is
  dropped);
* the source reports failures by printing and returning `NULL`; the
  embedding returns `Except MatrixError _` with the corresponding
  error tag;
* in-place writes (the loops filling a result matrix, and
  `insert_row` / `insert_column`) become functional updates; the loop
  of `apply_function_elementwise` is kept as an explicit fold over a
  (input, output) state pair so that non-mutation of the input is a
  provable statement rather than a typing triviality.
-/

namespace NN

noncomputable section

/-- STRUCTURE Matrix: number_of_rows, number_of_columns, data
(src/nn_func.c lines 133-137). -/
@[ext]
structure Matrix where
  rows : ℕ
  cols : ℕ
  data : ℕ → ℕ → ℝ

/-- Error taxonomy of the spec for the source's print-and-return-NULL
failure exits. -/
inductive MatrixError where
  | InvalidDimensions
  | ShapeMismatch
  | NotAVector
  deriving DecidableEq

/-- The allocation + zero-initialisation core of `create_matrix`
(src/nn_func.c lines 140-170, steps 1-6 with allocation assumed to
succeed): a `rows × cols` matrix, every element `0.0`.  Used directly
by the internal operations, which call `create_matrix` without a
validation step. -/
def mk_zero (rows cols : ℕ) : Matrix :=
  ⟨rows, cols, fun _ _ => 0⟩

/-- `create_matrix` with the input validation of the detailed variant
(src/comment.c lines 1860-1879): `rows <= 0 OR cols <= 0` is rejected,
otherwise a zero-initialised `rows × cols` matrix is returned.  The
arguments are the C `int` parameters, embedded as unbounded integers. -/
def create_matrix (rows cols : Int) : Except MatrixError Matrix :=
  if rows ≤ 0 ∨ cols ≤ 0 then Except.error MatrixError.InvalidDimensions
  else Except.ok (mk_zero rows.toNat cols.toNat)

/-- A single store `matrix.data[i][j] = v`. -/
def mset (m : Matrix) (i j : ℕ) (v : ℝ) : Matrix :=
  { m with data := fun i' j' => if i' = i ∧ j' = j then v else m.data i' j' }

/-- GET_ELEMENT(matrix, i) for a vector-shaped matrix: `data[0][i]`
for a `1×N` row vector, `data[i][0]` otherwise (an `N×1` column). -/
def vget (m : Matrix) (i : ℕ) : ℝ :=
  if m.rows = 1 then m.data 0 i else m.data i 0

/-- `length = MAX(matrix.rows, matrix.cols)` of
`apply_softmax_to_vector`. -/
def vlength (m : Matrix) : ℕ :=
  max m.rows m.cols

/-- The max-finding loop of `apply_softmax_to_vector`
(src/comment.c lines 64-71): `max_val = matrix.data[0][0]`, then for
each `i` below `length`, replace `max_val` whenever
`GET_ELEMENT(matrix, i) > max_val`. -/
def vmax (m : Matrix) : ℝ :=
  (List.range (vlength m)).foldl
    (fun acc i => if vget m i > acc then vget m i else acc) (m.data 0 0)

/-- The sum-of-exponentials loop of `apply_softmax_to_vector`
(src/comment.c lines 73-79): `sum_exp` starts at `0.0` and accumulates
`exp(GET_ELEMENT(matrix, i) - max_val)`. -/
def vsumexp (m : Matrix) : ℝ :=
  (List.range (vlength m)).foldl
    (fun acc i => acc + Real.exp (vget m i - vmax m)) 0

/-- The per-element softmax value written by the output loop:
`exp(x_i - max_val) / sum_exp`. -/
def sval (m : Matrix) (i : ℕ) : ℝ :=
  Real.exp (vget m i - vmax m) / vsumexp m

/-- The body of `apply_softmax_to_vector` after the vector check
(src/comment.c lines 63-89): `result = create_matrix(rows, cols)`,
then `SET_ELEMENT(result, i, softmax_val)` for each `i` below
`length`.  `SET_ELEMENT` follows the same row/column convention as
`GET_ELEMENT`: a `1×N` result is written at `(0, i)`, an `N×1` result
at `(i, 0)`; all other cells keep the `0.0` of `create_matrix`. -/
def softmaxVec (m : Matrix) : Matrix :=
  ⟨m.rows, m.cols, fun i j =>
    if m.rows = 1 then
      (if i = 0 ∧ j < vlength m then sval m j else 0)
    else
      (if j = 0 ∧ i < vlength m then sval m i else 0)⟩

/-- `apply_softmax_to_vector` (src/comment.c lines 54-90): fails when
`matrix.rows != 1 AND matrix.cols != 1`, otherwise runs the
max-shifted softmax. -/
def apply_softmax_to_vector (m : Matrix) : Except MatrixError Matrix :=
  if m.rows ≠ 1 ∧ m.cols ≠ 1 then Except.error MatrixError.NotAVector
  else Except.ok (softmaxVec m)

/-- Adding one constant to every element of a matrix (the shifted
input of the softmax shift-invariance property). -/
def addConst (c : ℝ) (m : Matrix) : Matrix :=
  { m with data := fun i j => m.data i j + c }

/-- `extract_row` (src/comment.c lines 127-133): a fresh `1×cols`
matrix with `result.data[0][j] = matrix.data[row_index][j]`. -/
def extract_row (m : Matrix) (i : ℕ) : Matrix :=
  ⟨1, m.cols, fun i' j => if i' = 0 ∧ j < m.cols then m.data i j else 0⟩

/-- `extract_column` (src/comment.c lines 135-141): a fresh `rows×1`
matrix with `result.data[i][0] = matrix.data[i][col_index]`. -/
def extract_column (m : Matrix) (j : ℕ) : Matrix :=
  ⟨m.rows, 1, fun i j' => if j' = 0 ∧ i < m.rows then m.data i j else 0⟩

/-- `insert_row` (src/comment.c lines 143-147): for `j` from `0` to
`dest_matrix.cols - 1`, `dest_matrix.data[row_index][j] =
source_row.data[0][j]`.  Note: the source performs no shape check on
`source_row`. -/
def insert_row (dest : Matrix) (i : ℕ) (row : Matrix) : Matrix :=
  { dest with data := fun i' j =>
      if i' = i ∧ j < dest.cols then row.data 0 j else dest.data i' j }

/-- `insert_column` (src/comment.c lines 149-153): for `i` from `0` to
`dest_matrix.rows - 1`, `dest_matrix.data[i][col_index] =
source_col.data[i][0]`.  No shape check on `source_col`. -/
def insert_column (dest : Matrix) (j : ℕ) (col : Matrix) : Matrix :=
  { dest with data := fun i j' =>
      if j' = j ∧ i < dest.rows then col.data i 0 else dest.data i j' }

/-- `hadamard_product` (src/comment.c lines 34-49): shape mismatch is
rejected before any output is produced; otherwise a fresh matrix with
`result.data[i][j] = A.data[i][j] * B.data[i][j]`. -/
def hadamard_product (a b : Matrix) : Except MatrixError Matrix :=
  if a.rows ≠ b.rows ∨ a.cols ≠ b.cols then
    Except.error MatrixError.ShapeMismatch
  else
    Except.ok ⟨a.rows, a.cols, fun i j =>
      if i < a.rows ∧ j < a.cols then a.data i j * b.data i j else 0⟩

/-- One step of the inner (column) loop of
`apply_function_elementwise` on the (input, output) state: read
`input.data[i][j]`, write `f` of it into the output. -/
def ewInner (f : ℝ → ℝ) (i : ℕ) (st : Matrix × Matrix) (j : ℕ) :
    Matrix × Matrix :=
  (st.1, mset st.2 i j (f (st.1.data i j)))

/-- One step of the outer (row) loop of `apply_function_elementwise`:
run the inner loop over all columns of row `i`. -/
def ewOuter (f : ℝ → ℝ) (cols : ℕ) (st : Matrix × Matrix) (i : ℕ) :
    Matrix × Matrix :=
  (List.range cols).foldl (ewInner f i) st

/-- `apply_function_elementwise` (src/nn_func.c lines 173-211, same
body as `apply_activation_elementwise` in src/comment.c lines 4-14):
create an output matrix of the input's dimensions and fill
`output.data[i][j] = f(input.data[i][j])` in row-major order.  The
state threads the input alongside the output, returning both as they
stand when the call ends. -/
def apply_function_elementwise (m : Matrix) (f : ℝ → ℝ) :
    Matrix × Matrix :=
  (List.range m.rows).foldl (ewOuter f m.cols) (m, mk_zero m.rows m.cols)

/-- The `axis == 1` branch of `apply_softmax_batch` (src/comment.c
lines 101-108): for each row, extract it, softmax it, insert the
result at the same row index of the output.  The source does not test
the softmax result for `NULL`; an error result (impossible for an
extracted `1×N` row) leaves the output row untouched. -/
def softmax_rows (m : Matrix) : Matrix :=
  (List.range m.rows).foldl
    (fun res i =>
      match apply_softmax_to_vector (extract_row m i) with
      | Except.ok s => insert_row res i s
      | Except.error _ => res)
    (mk_zero m.rows m.cols)

/-- The `else` branch of `apply_softmax_batch` (src/comment.c lines
109-118): per-column softmax. -/
def softmax_cols (m : Matrix) : Matrix :=
  (List.range m.cols).foldl
    (fun res j =>
      match apply_softmax_to_vector (extract_column m j) with
      | Except.ok s => insert_column res j s
      | Except.error _ => res)
    (mk_zero m.rows m.cols)

/-- `apply_softmax_batch` (src/comment.c lines 95-122): `axis == 1`
runs the per-row loop, every other axis value the per-column loop; the
axis argument is the C `int` parameter and is never validated. -/
def apply_softmax_batch (m : Matrix) (axis : Int) : Matrix :=
  if axis = 1 then softmax_rows m else softmax_cols m

/-- The `2×3` matrix `[[1,2,3],[0,0,0]]` of the batch-softmax
example. -/
def M23 : Matrix :=
  ⟨2, 3, fun i j =>
    if i = 0 ∧ j < 3 then ((j : ℝ) + 1) else 0⟩

/-! ### Basic shape lemmas -/

@[simp] lemma mk_zero_rows (r c : ℕ) : (mk_zero r c).rows = r := rfl
@[simp] lemma mk_zero_cols (r c : ℕ) : (mk_zero r c).cols = c := rfl
@[simp] lemma mk_zero_data (r c i j : ℕ) : (mk_zero r c).data i j = 0 := rfl

@[simp] lemma mset_rows (m : Matrix) (i j : ℕ) (v : ℝ) :
    (mset m i j v).rows = m.rows := rfl
@[simp] lemma mset_cols (m : Matrix) (i j : ℕ) (v : ℝ) :
    (mset m i j v).cols = m.cols := rfl

@[simp] lemma addConst_rows (c : ℝ) (m : Matrix) :
    (addConst c m).rows = m.rows := rfl
@[simp] lemma addConst_cols (c : ℝ) (m : Matrix) :
    (addConst c m).cols = m.cols := rfl
@[simp] lemma addConst_data (c : ℝ) (m : Matrix) (i j : ℕ) :
    (addConst c m).data i j = m.data i j + c := rfl

@[simp] lemma softmaxVec_rows (m : Matrix) : (softmaxVec m).rows = m.rows := rfl
@[simp] lemma softmaxVec_cols (m : Matrix) : (softmaxVec m).cols = m.cols := rfl

@[simp] lemma extract_row_rows (m : Matrix) (i : ℕ) :
    (extract_row m i).rows = 1 := rfl
@[simp] lemma extract_row_cols (m : Matrix) (i : ℕ) :
    (extract_row m i).cols = m.cols := rfl

@[simp] lemma extract_column_rows (m : Matrix) (j : ℕ) :
    (extract_column m j).rows = m.rows := rfl
@[simp] lemma extract_column_cols (m : Matrix) (j : ℕ) :
    (extract_column m j).cols = 1 := rfl

@[simp] lemma insert_row_rows (dest : Matrix) (i : ℕ) (row : Matrix) :
    (insert_row dest i row).rows = dest.rows := rfl
@[simp] lemma insert_row_cols (dest : Matrix) (i : ℕ) (row : Matrix) :
    (insert_row dest i row).cols = dest.cols := rfl

@[simp] lemma insert_column_rows (dest : Matrix) (j : ℕ) (col : Matrix) :
    (insert_column dest j col).rows = dest.rows := rfl
@[simp] lemma insert_column_cols (dest : Matrix) (j : ℕ) (col : Matrix) :
    (insert_column dest j col).cols = dest.cols := rfl

/-! ### The accumulation loops as finite sums -/

lemma foldl_add_eq_sum (g : ℕ → ℝ) :
    ∀ (n : ℕ) (s : ℝ),
      (List.range n).foldl (fun a i => a + g i) s
        = s + ∑ i in Finset.range n, g i := by
  intro n
  induction n with
  | zero => intro s; simp
  | succ k ih =>
      intro s
      rw [List.range_succ, List.foldl_append, ih, Finset.sum_range_succ]
      simp [add_assoc]

lemma vsumexp_eq_sum (m : Matrix) :
    vsumexp m
      = ∑ i in Finset.range (vlength m), Real.exp (vget m i - vmax m) := by
  rw [vsumexp, foldl_add_eq_sum, zero_add]

lemma vsumexp_pos (m : Matrix) (h : 1 ≤ vlength m) : 0 < vsumexp m := by
  rw [vsumexp_eq_sum]
  apply Finset.sum_pos (fun i _ => Real.exp_pos _)
  exact Finset.nonempty_range_iff.mpr (by omega)

lemma sval_pos (m : Matrix) (h : 1 ≤ vlength m) (i : ℕ) : 0 < sval m i :=
  div_pos (Real.exp_pos _) (vsumexp_pos m h)

lemma sum_sval (m : Matrix) (h : 1 ≤ vlength m) :
    ∑ i in Finset.range (vlength m), sval m i = 1 := by
  have hs : vsumexp m ≠ 0 := ne_of_gt (vsumexp_pos m h)
  rw [show (∑ i in Finset.range (vlength m), sval m i)
        = (∑ i in Finset.range (vlength m),
            Real.exp (vget m i - vmax m)) / vsumexp m by
      rw [Finset.sum_div]; rfl]
  rw [← vsumexp_eq_sum]
  exact div_self hs

lemma sval_lt_sval (m : Matrix) (h : 1 ≤ vlength m) {a b : ℕ}
    (hab : vget m a < vget m b) : sval m a < sval m b := by
  have he : Real.exp (vget m a - vmax m) < Real.exp (vget m b - vmax m) :=
    Real.exp_lt_exp.mpr (sub_lt_sub_right hab _)
  exact (div_lt_div_iff_of_pos_right (vsumexp_pos m h)).mpr he

/-! ### Vector-shape bookkeeping -/

lemma vlength_of_row (m : Matrix) (hr : m.rows = 1) (hc : 1 ≤ m.cols) :
    vlength m = m.cols := by
  rw [vlength, hr, Nat.max_eq_right hc]

lemma vlength_of_col (m : Matrix) (hc : m.cols = 1) (hr : 1 ≤ m.rows) :
    vlength m = m.rows := by
  rw [vlength, hc, Nat.max_eq_left hr]

lemma softmaxVec_data_row (m : Matrix) (hr : m.rows = 1) {j : ℕ}
    (hj : j < vlength m) : (softmaxVec m).data 0 j = sval m j := by
  simp [softmaxVec, hr, hj]

lemma softmaxVec_data_col (m : Matrix) (hr : m.rows ≠ 1) {i : ℕ}
    (hi : i < vlength m) : (softmaxVec m).data i 0 = sval m i := by
  simp [softmaxVec, hr, hi]

lemma softmaxVec_row_sum (m : Matrix) (hr : m.rows = 1) (hc : 1 ≤ m.cols) :
    ∑ j in Finset.range m.cols, (softmaxVec m).data 0 j = 1 := by
  have hl := vlength_of_row m hr hc
  have h1 : 1 ≤ vlength m := by rw [hl]; exact hc
  calc ∑ j in Finset.range m.cols, (softmaxVec m).data 0 j
      = ∑ j in Finset.range (vlength m), sval m j := by
        rw [hl]
        exact Finset.sum_congr rfl fun j hj =>
          softmaxVec_data_row m hr (hl ▸ Finset.mem_range.mp hj)
    _ = 1 := sum_sval m h1

lemma softmaxVec_col_sum (m : Matrix) (hr : m.rows ≠ 1) (hc : m.cols = 1)
    (h1r : 1 ≤ m.rows) :
    ∑ i in Finset.range m.rows, (softmaxVec m).data i 0 = 1 := by
  have hl := vlength_of_col m hc h1r
  have h1 : 1 ≤ vlength m := by rw [hl]; exact h1r
  calc ∑ i in Finset.range m.rows, (softmaxVec m).data i 0
      = ∑ i in Finset.range (vlength m), sval m i := by
        rw [hl]
        exact Finset.sum_congr rfl fun i hi =>
          softmaxVec_data_col m hr (hl ▸ Finset.mem_range.mp hi)
    _ = 1 := sum_sval m h1

/-! ### Shift invariance machinery -/

lemma foldl_max_shift (g : ℕ → ℝ) (c : ℝ) :
    ∀ (n : ℕ) (a : ℝ),
      (List.range n).foldl
          (fun acc i => if g i + c > acc then g i + c else acc) (a + c)
        = ((List.range n).foldl
            (fun acc i => if g i > acc then g i else acc) a) + c := by
  intro n
  induction n with
  | zero => intro a; simp
  | succ k ih =>
      intro a
      rw [List.range_succ, List.foldl_append, List.foldl_append, ih]
      simp only [List.foldl_cons, List.foldl_nil]
      by_cases hgt :
          g k > (List.range k).foldl (fun acc i => if g i > acc then g i else acc) a
      · rw [if_pos (by linarith), if_pos hgt]
      · rw [if_neg (by intro h; exact hgt (by linarith)), if_neg hgt]

@[simp] lemma vlength_addConst (c : ℝ) (m : Matrix) :
    vlength (addConst c m) = vlength m := rfl

lemma vget_addConst (c : ℝ) (m : Matrix) (i : ℕ) :
    vget (addConst c m) i = vget m i + c := by
  by_cases h : m.rows = 1 <;> simp [vget, addConst, h]

lemma vmax_addConst (c : ℝ) (m : Matrix) :
    vmax (addConst c m) = vmax m + c := by
  rw [vmax, vmax, show vlength (addConst c m) = vlength m from rfl]
  have hstep :
      (fun (acc : ℝ) i =>
          if vget (addConst c m) i > acc then vget (addConst c m) i else acc)
        = fun acc i => if vget m i + c > acc then vget m i + c else acc := by
    funext acc i; rw [vget_addConst]
  rw [hstep, show (addConst c m).data 0 0 = m.data 0 0 + c from rfl,
    foldl_max_shift]

lemma vsumexp_addConst (c : ℝ) (m : Matrix) :
    vsumexp (addConst c m) = vsumexp m := by
  rw [vsumexp, vsumexp, show vlength (addConst c m) = vlength m from rfl]
  congr 1
  funext acc i
  rw [vget_addConst, vmax_addConst]
  ring_nf

lemma sval_addConst (c : ℝ) (m : Matrix) (i : ℕ) :
    sval (addConst c m) i = sval m i := by
  rw [sval, sval, vget_addConst, vmax_addConst, vsumexp_addConst]
  ring_nf

lemma softmaxVec_addConst (c : ℝ) (m : Matrix) :
    softmaxVec (addConst c m) = softmaxVec m := by
  refine Matrix.ext rfl rfl ?_
  funext i j
  simp only [softmaxVec, addConst_rows, vlength_addConst, sval_addConst]

/-! ### The batch loops -/

lemma apply_softmax_to_vector_extract_row (m : Matrix) (i : ℕ) :
    apply_softmax_to_vector (extract_row m i)
      = Except.ok (softmaxVec (extract_row m i)) := by
  simp [apply_softmax_to_vector]

lemma apply_softmax_to_vector_extract_column (m : Matrix) (j : ℕ) :
    apply_softmax_to_vector (extract_column m j)
      = Except.ok (softmaxVec (extract_column m j)) := by
  simp [apply_softmax_to_vector]

lemma foldl_insert_row_spec (g : ℕ → Matrix) :
    ∀ (n : ℕ) (res : Matrix),
      (((List.range n).foldl (fun r i => insert_row r i (g i)) res).rows
          = res.rows) ∧
      (((List.range n).foldl (fun r i => insert_row r i (g i)) res).cols
          = res.cols) ∧
      ∀ i j,
        ((List.range n).foldl (fun r i => insert_row r i (g i)) res).data i j
          = if i < n ∧ j < res.cols then (g i).data 0 j else res.data i j := by
  intro n
  induction n with
  | zero =>
      intro res
      exact ⟨rfl, rfl, fun i j => by simp⟩
  | succ k ih =>
      intro res
      obtain ⟨hr, hc, hd⟩ := ih res
      rw [List.range_succ, List.foldl_append]
      simp only [List.foldl_cons, List.foldl_nil]
      refine ⟨hr, hc, fun i j => ?_⟩
      have hins :
          (insert_row ((List.range k).foldl
              (fun r i => insert_row r i (g i)) res) k (g k)).data i j
            = if i = k ∧ j < res.cols then (g k).data 0 j
              else ((List.range k).foldl
                (fun r i => insert_row r i (g i)) res).data i j := by
        rw [show (insert_row ((List.range k).foldl
              (fun r i => insert_row r i (g i)) res) k (g k)).data i j
            = if i = k ∧ j < ((List.range k).foldl
                  (fun r i => insert_row r i (g i)) res).cols
              then (g k).data 0 j
              else ((List.range k).foldl
                (fun r i => insert_row r i (g i)) res).data i j from rfl, hc]
      rw [hins, hd i j]
      by_cases hj : j < res.cols
      · by_cases hik : i = k
        · subst hik
          rw [if_pos ⟨rfl, hj⟩, if_pos ⟨Nat.lt_succ_self i, hj⟩]
        · rw [if_neg (fun h => hik h.1)]
          by_cases hlt : i < k
          · rw [if_pos ⟨hlt, hj⟩, if_pos ⟨by omega, hj⟩]
          · rw [if_neg (fun h => hlt h.1),
              if_neg (fun h => (by omega : ¬ i < k + 1) h.1)]
      · rw [if_neg (fun h => hj h.2), if_neg (fun h => hj h.2),
          if_neg (fun h => hj h.2)]

lemma foldl_insert_column_spec (g : ℕ → Matrix) :
    ∀ (n : ℕ) (res : Matrix),
      (((List.range n).foldl (fun r j => insert_column r j (g j)) res).rows
          = res.rows) ∧
      (((List.range n).foldl (fun r j => insert_column r j (g j)) res).cols
          = res.cols) ∧
      ∀ i j,
        ((List.range n).foldl
            (fun r j => insert_column r j (g j)) res).data i j
          = if j < n ∧ i < res.rows then (g j).data i 0 else res.data i j := by
  intro n
  induction n with
  | zero =>
      intro res
      exact ⟨rfl, rfl, fun i j => by simp⟩
  | succ k ih =>
      intro res
      obtain ⟨hr, hc, hd⟩ := ih res
      rw [List.range_succ, List.foldl_append]
      simp only [List.foldl_cons, List.foldl_nil]
      refine ⟨hr, hc, fun i j => ?_⟩
      have hins :
          (insert_column ((List.range k).foldl
              (fun r j => insert_column r j (g j)) res) k (g k)).data i j
            = if j = k ∧ i < res.rows then (g k).data i 0
              else ((List.range k).foldl
                (fun r j => insert_column r j (g j)) res).data i j := by
        rw [show (insert_column ((List.range k).foldl
              (fun r j => insert_column r j (g j)) res) k (g k)).data i j
            = if j = k ∧ i < ((List.range k).foldl
                  (fun r j => insert_column r j (g j)) res).rows
              then (g k).data i 0
              else ((List.range k).foldl
                (fun r j => insert_column r j (g j)) res).data i j from rfl,
          hr]
      rw [hins, hd i j]
      by_cases hi : i < res.rows
      · by_cases hjk : j = k
        · subst hjk
          rw [if_pos ⟨rfl, hi⟩, if_pos ⟨Nat.lt_succ_self j, hi⟩]
        · rw [if_neg (fun h => hjk h.1)]
          by_cases hlt : j < k
          · rw [if_pos ⟨hlt, hi⟩, if_pos ⟨by omega, hi⟩]
          · rw [if_neg (fun h => hlt h.1),
              if_neg (fun h => (by omega : ¬ j < k + 1) h.1)]
      · rw [if_neg (fun h => hi h.2), if_neg (fun h => hi h.2),
          if_neg (fun h => hi h.2)]

lemma softmax_rows_spec (m : Matrix) :
    (softmax_rows m).rows = m.rows ∧ (softmax_rows m).cols = m.cols ∧
      ∀ i j, i < m.rows → j < m.cols →
        (softmax_rows m).data i j = (softmaxVec (extract_row m i)).data 0 j := by
  have hfun : softmax_rows m
      = (List.range m.rows).foldl
          (fun r i => insert_row r i (softmaxVec (extract_row m i)))
          (mk_zero m.rows m.cols) := by
    have hstep :
        (fun (res : Matrix) i =>
            match apply_softmax_to_vector (extract_row m i) with
            | Except.ok s => insert_row res i s
            | Except.error _ => res)
          = fun (res : Matrix) i =>
              insert_row res i (softmaxVec (extract_row m i)) := by
      funext res i
      rw [apply_softmax_to_vector_extract_row]
    rw [softmax_rows, hstep]
  obtain ⟨hr, hc, hd⟩ :=
    foldl_insert_row_spec (fun i => softmaxVec (extract_row m i)) m.rows
      (mk_zero m.rows m.cols)
  rw [hfun]
  refine ⟨by simpa using hr, by simpa using hc, fun i j hi hj => ?_⟩
  rw [hd i j, if_pos ⟨hi, by simpa using hj⟩]

lemma softmax_cols_spec (m : Matrix) :
    (softmax_cols m).rows = m.rows ∧ (softmax_cols m).cols = m.cols ∧
      ∀ i j, i < m.rows → j < m.cols →
        (softmax_cols m).data i j
          = (softmaxVec (extract_column m j)).data i 0 := by
  have hfun : softmax_cols m
      = (List.range m.cols).foldl
          (fun r j => insert_column r j (softmaxVec (extract_column m j)))
          (mk_zero m.rows m.cols) := by
    have hstep :
        (fun (res : Matrix) j =>
            match apply_softmax_to_vector (extract_column m j) with
            | Except.ok s => insert_column res j s
            | Except.error _ => res)
          = fun (res : Matrix) j =>
              insert_column res j (softmaxVec (extract_column m j)) := by
      funext res j
      rw [apply_softmax_to_vector_extract_column]
    rw [softmax_cols, hstep]
  obtain ⟨hr, hc, hd⟩ :=
    foldl_insert_column_spec (fun j => softmaxVec (extract_column m j)) m.cols
      (mk_zero m.rows m.cols)
  rw [hfun]
  refine ⟨by simpa using hr, by simpa using hc, fun i j hi hj => ?_⟩
  rw [hd i j, if_pos ⟨hj, by simpa using hi⟩]

/-! ### The elementwise mapping loop -/

lemma ewInner_fst (f : ℝ → ℝ) (i : ℕ) :
    ∀ (l : List ℕ) (st : Matrix × Matrix), (l.foldl (ewInner f i) st).1 = st.1 := by
  intro l
  induction l with
  | nil => intro st; rfl
  | cons a t ih => intro st; rw [List.foldl_cons, ih]; rfl

lemma ewOuter_fst (f : ℝ → ℝ) (c : ℕ) :
    ∀ (l : List ℕ) (st : Matrix × Matrix), (l.foldl (ewOuter f c) st).1 = st.1 := by
  intro l
  induction l with
  | nil => intro st; rfl
  | cons a t ih =>
      intro st
      rw [List.foldl_cons, ih, ewOuter, ewInner_fst]

lemma ewInner_snd_shape (f : ℝ → ℝ) (i : ℕ) :
    ∀ (l : List ℕ) (st : Matrix × Matrix),
      ((l.foldl (ewInner f i) st).2).rows = st.2.rows ∧
      ((l.foldl (ewInner f i) st).2).cols = st.2.cols := by
  intro l
  induction l with
  | nil => intro st; exact ⟨rfl, rfl⟩
  | cons a t ih =>
      intro st
      rw [List.foldl_cons]
      exact (ih (ewInner f i st a))

lemma ewOuter_snd_shape (f : ℝ → ℝ) (c : ℕ) :
    ∀ (l : List ℕ) (st : Matrix × Matrix),
      ((l.foldl (ewOuter f c) st).2).rows = st.2.rows ∧
      ((l.foldl (ewOuter f c) st).2).cols = st.2.cols := by
  intro l
  induction l with
  | nil => intro st; exact ⟨rfl, rfl⟩
  | cons a t ih =>
      intro st
      rw [List.foldl_cons]
      obtain ⟨h1, h2⟩ := ih (ewOuter f c st a)
      obtain ⟨h3, h4⟩ := ewInner_snd_shape f a (List.range c) st
      exact ⟨h1.trans h3, h2.trans h4⟩

lemma ewInner_spec (f : ℝ → ℝ) (i : ℕ) :
    ∀ (n : ℕ) (st : Matrix × Matrix) (i' j' : ℕ),
      (((List.range n).foldl (ewInner f i) st).2).data i' j'
        = if i' = i ∧ j' < n then f (st.1.data i j') else st.2.data i' j' := by
  intro n
  induction n with
  | zero => intro st i' j'; simp
  | succ k ih =>
      intro st i' j'
      rw [List.range_succ, List.foldl_append]
      simp only [List.foldl_cons, List.foldl_nil]
      rw [show (ewInner f i ((List.range k).foldl (ewInner f i) st) k).2.data i' j'
          = if i' = i ∧ j' = k
            then f ((((List.range k).foldl (ewInner f i) st)).1.data i k)
            else (((List.range k).foldl (ewInner f i) st)).2.data i' j' from rfl,
        ewInner_fst f i (List.range k) st, ih st i' j']
      by_cases hii : i' = i
      · by_cases hjk : j' = k
        · subst hjk
          rw [if_pos ⟨hii, rfl⟩, if_pos ⟨hii, Nat.lt_succ_self _⟩]
        · rw [if_neg (fun h => hjk h.2)]
          by_cases hjlt : j' < k
          · rw [if_pos ⟨hii, hjlt⟩, if_pos ⟨hii, by omega⟩]
          · rw [if_neg (fun h => hjlt h.2),
              if_neg (fun h => (show ¬ j' < k + 1 by omega) h.2)]
      · rw [if_neg (fun h => hii h.1), if_neg (fun h => hii h.1),
          if_neg (fun h => hii h.1)]

lemma ewOuter_spec (f : ℝ → ℝ) (c : ℕ) :
    ∀ (n : ℕ) (st : Matrix × Matrix) (i' j' : ℕ),
      (((List.range n).foldl (ewOuter f c) st).2).data i' j'
        = if i' < n ∧ j' < c then f (st.1.data i' j') else st.2.data i' j' := by
  intro n
  induction n with
  | zero => intro st i' j'; simp
  | succ k ih =>
      intro st i' j'
      rw [List.range_succ, List.foldl_append]
      simp only [List.foldl_cons, List.foldl_nil]
      rw [show ewOuter f c ((List.range k).foldl (ewOuter f c) st) k
          = (List.range c).foldl (ewInner f k)
              ((List.range k).foldl (ewOuter f c) st) from rfl,
        ewInner_spec f k c ((List.range k).foldl (ewOuter f c) st) i' j',
        ewOuter_fst f c (List.range k) st, ih st i' j']
      by_cases hjc : j' < c
      · by_cases hik : i' = k
        · subst hik
          rw [if_pos ⟨rfl, hjc⟩, if_pos ⟨Nat.lt_succ_self _, hjc⟩]
        · rw [if_neg (fun h => hik h.1)]
          by_cases hilt : i' < k
          · rw [if_pos ⟨hilt, hjc⟩, if_pos ⟨by omega, hjc⟩]
          · rw [if_neg (fun h => hilt h.1),
              if_neg (fun h => (show ¬ i' < k + 1 by omega) h.1)]
      · rw [if_neg (fun h => hjc h.2), if_neg (fun h => hjc h.2),
          if_neg (fun h => hjc h.2)]

/-! ### Concrete evaluations on the `[[1,2,3],[0,0,0]]` example -/

lemma vget_M23_row0_0 : vget (extract_row M23 0) 0 = 1 := by
  norm_num [vget, extract_row, M23]

lemma vget_M23_row0_1 : vget (extract_row M23 0) 1 = 2 := by
  norm_num [vget, extract_row, M23]

lemma vget_M23_row0_2 : vget (extract_row M23 0) 2 = 3 := by
  norm_num [vget, extract_row, M23]

lemma vget_M23_row1 (k : ℕ) : vget (extract_row M23 1) k = 0 := by
  simp [vget, extract_row, M23]

lemma vlength_M23_row (i : ℕ) : vlength (extract_row M23 i) = 3 := rfl

lemma vmax_M23_row1 : vmax (extract_row M23 1) = 0 := by
  rw [vmax, vlength_M23_row, show List.range 3 = [0, 1, 2] from rfl,
    show (extract_row M23 1).data 0 0 = 0 from by norm_num [extract_row, M23]]
  simp [vget_M23_row1]

lemma vsumexp_M23_row1 : vsumexp (extract_row M23 1) = 3 := by
  rw [vsumexp, vlength_M23_row, show List.range 3 = [0, 1, 2] from rfl]
  simp [vget_M23_row1, vmax_M23_row1, Real.exp_zero]
  norm_num

lemma sval_M23_row1 (k : ℕ) : sval (extract_row M23 1) k = 1 / 3 := by
  rw [sval, vget_M23_row1, vmax_M23_row1, vsumexp_M23_row1]
  simp [Real.exp_zero]

/-! ### Claim theorems -/

/-- C1: for every valid vector input `v` (a matrix with `rows == 1` or
`cols == 1`), `apply_softmax_to_vector` succeeds and returns a matrix
of the same shape in which every element is strictly positive and the
elements sum to exactly `1` (over the exact-real embedding of `exp`;
over exact reals every element is finite). -/
theorem softmax_vector_positive_sum_one (v : Matrix)
    (h1r : 1 ≤ v.rows) (h1c : 1 ≤ v.cols) (hv : v.rows = 1 ∨ v.cols = 1) :
    ∃ w, apply_softmax_to_vector v = Except.ok w ∧
      w.rows = v.rows ∧ w.cols = v.cols ∧
      (∀ i j, i < w.rows → j < w.cols → 0 < w.data i j) ∧
      ∑ i in Finset.range w.rows, ∑ j in Finset.range w.cols, w.data i j
        = 1 := by
  have hguard : ¬(v.rows ≠ 1 ∧ v.cols ≠ 1) := by tauto
  refine ⟨softmaxVec v, by rw [apply_softmax_to_vector, if_neg hguard],
    rfl, rfl, ?_, ?_⟩
  · intro i j hi hj
    rw [softmaxVec_rows] at hi
    rw [softmaxVec_cols] at hj
    by_cases hr : v.rows = 1
    · have hi0 : i = 0 := by omega
      subst hi0
      have hl : vlength v = v.cols := vlength_of_row v hr h1c
      rw [softmaxVec_data_row v hr (by omega : j < vlength v)]
      exact sval_pos v (by omega) j
    · have hc1 : v.cols = 1 := by tauto
      have hj0 : j = 0 := by omega
      subst hj0
      have hl : vlength v = v.rows := vlength_of_col v hc1 h1r
      rw [softmaxVec_data_col v hr (by omega : i < vlength v)]
      exact sval_pos v (by omega) i
  · by_cases hr : v.rows = 1
    · simp only [softmaxVec_rows, softmaxVec_cols]
      rw [hr, Finset.sum_range_one]
      exact softmaxVec_row_sum v hr h1c
    · have hc1 : v.cols = 1 := by tauto
      simp only [softmaxVec_rows, softmaxVec_cols]
      rw [hc1]
      rw [Finset.sum_congr rfl
        (fun i _ => (Finset.sum_range_one
          (f := fun j => (softmaxVec v).data i j)))]
      exact softmaxVec_col_sum v hr hc1 h1r

/-- Witness for C1 at the `1×1` zero vector. -/
theorem softmax_vector_positive_sum_one_witness :
    ∃ w, apply_softmax_to_vector (mk_zero 1 1) = Except.ok w ∧
      w.rows = (mk_zero 1 1).rows ∧ w.cols = (mk_zero 1 1).cols ∧
      (∀ i j, i < w.rows → j < w.cols → 0 < w.data i j) ∧
      ∑ i in Finset.range w.rows, ∑ j in Finset.range w.cols, w.data i j
        = 1 :=
  softmax_vector_positive_sum_one (mk_zero 1 1) (le_refl 1) (le_refl 1)
    (Or.inl rfl)

/-- C2: softmax is shift invariant, exactly, over the exact-real
embedding: adding one constant `c` to every element of a vector leaves
the result of `apply_softmax_to_vector` unchanged, because the
algorithm subtracts the maximum before exponentiating. -/
theorem softmax_shift_invariance (v : Matrix) (c : ℝ)
    (hv : v.rows = 1 ∨ v.cols = 1) :
    apply_softmax_to_vector (addConst c v) = apply_softmax_to_vector v := by
  have hguard : ¬(v.rows ≠ 1 ∧ v.cols ≠ 1) := by tauto
  rw [apply_softmax_to_vector, apply_softmax_to_vector,
    if_neg (show ¬((addConst c v).rows ≠ 1 ∧ (addConst c v).cols ≠ 1)
      from hguard),
    if_neg hguard, softmaxVec_addConst]

/-- Witness for C2 at the `1×2` zero vector shifted by `5`. -/
theorem softmax_shift_invariance_witness :
    apply_softmax_to_vector (addConst 5 (mk_zero 1 2))
      = apply_softmax_to_vector (mk_zero 1 2) :=
  softmax_shift_invariance (mk_zero 1 2) 5 (Or.inl rfl)

/-- C4: `hadamard_product` fails with `ShapeMismatch` (and produces no
matrix) exactly when the shapes differ; on matching shapes it returns
a matrix of that shape with `output[i][j] = a[i][j] * b[i][j]`
exactly. -/
theorem hadamard_product_spec (a b : Matrix) :
    (hadamard_product a b = Except.error MatrixError.ShapeMismatch
        ↔ (a.rows ≠ b.rows ∨ a.cols ≠ b.cols)) ∧
    (a.rows = b.rows → a.cols = b.cols →
      ∃ w, hadamard_product a b = Except.ok w ∧
        w.rows = a.rows ∧ w.cols = a.cols ∧
        ∀ i j, i < a.rows → j < a.cols →
          w.data i j = a.data i j * b.data i j) := by
  constructor
  · constructor
    · intro h
      by_contra hcon
      push_neg at hcon
      rw [hadamard_product, if_neg (by tauto)] at h
      exact Except.noConfusion h
    · intro h
      rw [hadamard_product, if_pos h]
  · intro h1 h2
    refine ⟨⟨a.rows, a.cols, fun i j =>
        if i < a.rows ∧ j < a.cols then a.data i j * b.data i j else 0⟩,
      by rw [hadamard_product, if_neg (by tauto)], rfl, rfl,
      fun i j hi hj => ?_⟩
    exact if_pos ⟨hi, hj⟩

/-- Witness for C4 at matching `1×1` matrices holding `2` and `3`. -/
theorem hadamard_product_spec_witness :
    ∃ w, hadamard_product (Matrix.mk 1 1 fun _ _ => 2)
        (Matrix.mk 1 1 fun _ _ => 3) = Except.ok w ∧
      w.data 0 0 = 6 := by
  obtain ⟨w, hok, _, _, hval⟩ :=
    (hadamard_product_spec (Matrix.mk 1 1 fun _ _ => 2)
      (Matrix.mk 1 1 fun _ _ => 3)).2 rfl rfl
  refine ⟨w, hok, ?_⟩
  rw [hval 0 0 one_pos one_pos]
  norm_num

/-- C5: for positive requested dimensions (allocation always succeeds
in the embedding), `create_matrix` returns a matrix of exactly those
dimensions with every element `0.0`. -/
theorem create_matrix_valid_zero (rows cols : Int)
    (hr : 1 ≤ rows) (hc : 1 ≤ cols) :
    ∃ w, create_matrix rows cols = Except.ok w ∧
      (w.rows : Int) = rows ∧ (w.cols : Int) = cols ∧
      ∀ i j, w.data i j = 0 := by
  have hguard : ¬(rows ≤ 0 ∨ cols ≤ 0) := by omega
  exact ⟨mk_zero rows.toNat cols.toNat,
    by rw [create_matrix, if_neg hguard],
    by simp [Int.toNat_of_nonneg (by omega : (0:ℤ) ≤ rows)],
    by simp [Int.toNat_of_nonneg (by omega : (0:ℤ) ≤ cols)],
    fun i j => rfl⟩

/-- Witness for C5 at `create_matrix 2 3`. -/
theorem create_matrix_valid_zero_witness :
    ∃ w, create_matrix 2 3 = Except.ok w ∧
      (w.rows : Int) = 2 ∧ (w.cols : Int) = 3 ∧
      ∀ i j, w.data i j = 0 :=
  create_matrix_valid_zero 2 3 (by norm_num) (by norm_num)

/-- C6: `create_matrix` rejects `rows ≤ 0` or `cols ≤ 0` with
`InvalidDimensions`, returning an error and no matrix. -/
theorem create_matrix_rejects_nonpositive (rows cols : Int)
    (h : rows ≤ 0 ∨ cols ≤ 0) :
    create_matrix rows cols
      = Except.error MatrixError.InvalidDimensions := by
  rw [create_matrix, if_pos h]

/-- Witness for C6 at `create_matrix 0 5`. -/
theorem create_matrix_rejects_nonpositive_witness :
    create_matrix 0 5 = Except.error MatrixError.InvalidDimensions :=
  create_matrix_rejects_nonpositive 0 5 (Or.inl le_rfl)

/-- C7: `apply_softmax_to_vector` fails with `NotAVector` exactly when
`v.rows != 1 AND v.cols != 1`; a `1×1` matrix is accepted as a trivial
one-element vector whose single output is `1.0`. -/
theorem softmax_vector_vector_check (v : Matrix) :
    (apply_softmax_to_vector v = Except.error MatrixError.NotAVector
        ↔ (v.rows ≠ 1 ∧ v.cols ≠ 1)) ∧
    (v.rows = 1 → v.cols = 1 →
      ∃ w, apply_softmax_to_vector v = Except.ok w ∧
        w.rows = 1 ∧ w.cols = 1 ∧ w.data 0 0 = 1) := by
  constructor
  · constructor
    · intro h
      by_contra hcon
      rw [apply_softmax_to_vector, if_neg hcon] at h
      exact Except.noConfusion h
    · intro h
      rw [apply_softmax_to_vector, if_pos h]
  · intro hr hc
    have hguard : ¬(v.rows ≠ 1 ∧ v.cols ≠ 1) := by tauto
    refine ⟨softmaxVec v, by rw [apply_softmax_to_vector, if_neg hguard],
      by rw [softmaxVec_rows, hr], by rw [softmaxVec_cols, hc], ?_⟩
    have hl : vlength v = 1 := by rw [vlength, hr, hc]; exact max_self 1
    rw [softmaxVec_data_row v hr (by omega)]
    have hmax : vmax v = v.data 0 0 := by
      rw [vmax, hl, show List.range 1 = [0] from rfl]
      simp [vget, hr]
    have hsum : vsumexp v = 1 := by
      rw [vsumexp, hl, show List.range 1 = [0] from rfl]
      simp [vget, hr, hmax, Real.exp_zero]
    rw [sval, hmax, hsum]
    simp [vget, hr, Real.exp_zero]

/-- Witness for C7 at the `1×1` matrix holding `42`. -/
theorem softmax_vector_vector_check_witness :
    ∃ w, apply_softmax_to_vector (Matrix.mk 1 1 fun _ _ => 42)
        = Except.ok w ∧
      w.rows = 1 ∧ w.cols = 1 ∧ w.data 0 0 = 1 :=
  (softmax_vector_vector_check (Matrix.mk 1 1 fun _ _ => 42)).2 rfl rfl

/-- C3: `apply_softmax_batch(m, 1)` has `m`'s shape and its row `i` is
`apply_softmax_to_vector` of the extracted row `i`, independently for
every row; on the `2×3` matrix `[[1,2,3],[0,0,0]]` row 0 sums to `1`
with its largest weight in column 2, and row 1 is
`[1/3, 1/3, 1/3]`. -/
theorem softmax_batch_rows_and_example :
    (∀ m : Matrix,
      (apply_softmax_batch m 1).rows = m.rows ∧
      (apply_softmax_batch m 1).cols = m.cols ∧
      ∀ i j, i < m.rows → j < m.cols →
        ∃ s, apply_softmax_to_vector (extract_row m i) = Except.ok s ∧
          (apply_softmax_batch m 1).data i j = s.data 0 j) ∧
    (∑ j in Finset.range 3, (apply_softmax_batch M23 1).data 0 j = 1) ∧
    ((apply_softmax_batch M23 1).data 0 0
        < (apply_softmax_batch M23 1).data 0 2) ∧
    ((apply_softmax_batch M23 1).data 0 1
        < (apply_softmax_batch M23 1).data 0 2) ∧
    ((apply_softmax_batch M23 1).data 1 0 = 1 / 3) ∧
    ((apply_softmax_batch M23 1).data 1 1 = 1 / 3) ∧
    ((apply_softmax_batch M23 1).data 1 2 = 1 / 3) := by
  have hb : ∀ m : Matrix, apply_softmax_batch m 1 = softmax_rows m :=
    fun m => by rw [apply_softmax_batch, if_pos rfl]
  have hgen : ∀ m : Matrix,
      (apply_softmax_batch m 1).rows = m.rows ∧
      (apply_softmax_batch m 1).cols = m.cols ∧
      ∀ i j, i < m.rows → j < m.cols →
        ∃ s, apply_softmax_to_vector (extract_row m i) = Except.ok s ∧
          (apply_softmax_batch m 1).data i j = s.data 0 j := by
    intro m
    obtain ⟨hr, hc, hd⟩ := softmax_rows_spec m
    exact ⟨(hb m) ▸ hr, (hb m) ▸ hc, fun i j hi hj =>
      ⟨softmaxVec (extract_row m i), apply_softmax_to_vector_extract_row m i,
        by rw [hb m, hd i j hi hj]⟩⟩
  obtain ⟨_, _, hd23⟩ := softmax_rows_spec M23
  have hval : ∀ i j, i < 2 → j < 3 →
      (apply_softmax_batch M23 1).data i j
        = (softmaxVec (extract_row M23 i)).data 0 j := by
    intro i j hi hj
    rw [hb M23]
    exact hd23 i j hi hj
  have hlen1 : (1:ℕ) ≤ vlength (extract_row M23 0) := by
    rw [vlength_M23_row]; omega
  have hrow0 : ∀ j, j < 3 →
      (softmaxVec (extract_row M23 0)).data 0 j
        = sval (extract_row M23 0) j := by
    intro j hj
    exact softmaxVec_data_row (extract_row M23 0) rfl
      (by rw [vlength_M23_row]; omega)
  have hrow1 : ∀ j, j < 3 →
      (softmaxVec (extract_row M23 1)).data 0 j = 1 / 3 := by
    intro j hj
    rw [softmaxVec_data_row (extract_row M23 1) rfl
      (by rw [vlength_M23_row]; omega), sval_M23_row1]
  refine ⟨hgen, ?_, ?_, ?_, ?_, ?_, ?_⟩
  · have hsum := softmaxVec_row_sum (extract_row M23 0) rfl
      (by rw [extract_row_cols]; norm_num [M23])
    rw [show (extract_row M23 0).cols = 3 from rfl] at hsum
    calc ∑ j in Finset.range 3, (apply_softmax_batch M23 1).data 0 j
        = ∑ j in Finset.range 3,
            (softmaxVec (extract_row M23 0)).data 0 j :=
          Finset.sum_congr rfl fun j hj =>
            hval 0 j (by omega) (Finset.mem_range.mp hj)
      _ = 1 := hsum
  · rw [hval 0 0 (by omega) (by omega), hval 0 2 (by omega) (by omega),
      hrow0 0 (by omega), hrow0 2 (by omega)]
    exact sval_lt_sval (extract_row M23 0) hlen1
      (by rw [vget_M23_row0_0, vget_M23_row0_2]; norm_num)
  · rw [hval 0 1 (by omega) (by omega), hval 0 2 (by omega) (by omega),
      hrow0 1 (by omega), hrow0 2 (by omega)]
    exact sval_lt_sval (extract_row M23 0) hlen1
      (by rw [vget_M23_row0_1, vget_M23_row0_2]; norm_num)
  · rw [hval 1 0 (by omega) (by omega)]; exact hrow1 0 (by omega)
  · rw [hval 1 1 (by omega) (by omega)]; exact hrow1 1 (by omega)
  · rw [hval 1 2 (by omega) (by omega)]; exact hrow1 2 (by omega)

/-- Witness for C3's universally quantified part at the `1×1` zero
matrix, cell `(0,0)`. -/
theorem softmax_batch_rows_and_example_witness :
    ∃ s, apply_softmax_to_vector (extract_row (mk_zero 1 1) 0)
        = Except.ok s ∧
      (apply_softmax_batch (mk_zero 1 1) 1).data 0 0 = s.data 0 0 :=
  (softmax_batch_rows_and_example.1 (mk_zero 1 1)).2.2 0 0 one_pos one_pos

/-- C8 counterexample: `insert_row` called with a `1×2` source row on
a `1×1` destination (so `row.cols ≠ dest.cols`) does not reject the
call: it returns the destination with its row overwritten (cell
`(0,0)` becomes `5`), not the unchanged destination, and its return
carries no error at all. -/
theorem insert_row_mismatch_not_rejected :
    (Matrix.mk 1 2 fun _ j => if j = 0 then 5 else 7).cols
        ≠ (Matrix.mk 1 1 fun _ _ => 0).cols ∧
    insert_row (Matrix.mk 1 1 fun _ _ => 0) 0
        (Matrix.mk 1 2 fun _ j => if j = 0 then 5 else 7)
      ≠ (Matrix.mk 1 1 fun _ _ => 0) ∧
    (insert_row (Matrix.mk 1 1 fun _ _ => 0) 0
        (Matrix.mk 1 2 fun _ j => if j = 0 then 5 else 7)).data 0 0
      = 5 := by
  have hval : (insert_row (Matrix.mk 1 1 fun _ _ => 0) 0
      (Matrix.mk 1 2 fun _ j => if j = 0 then 5 else 7)).data 0 0
        = 5 := by
    norm_num [insert_row]
  refine ⟨by norm_num, ?_, hval⟩
  intro h
  have h0 := congrArg (fun m => m.data 0 0) h
  simp only at h0
  rw [hval] at h0
  norm_num at h0

/-- C8 amended: `insert_row` and `insert_column` perform no shape
validation and report no error: every call, shape-matched or not,
overwrites row `i` (resp. column `j`) of `dest` with the first
`dest.cols` (resp. `dest.rows`) elements of the source's row 0
(resp. column 0), leaving every other cell and the dimensions of
`dest` unchanged. -/
theorem insert_row_insert_column_no_check (dest : Matrix) (i j : ℕ)
    (row col : Matrix) :
    ((insert_row dest i row).rows = dest.rows ∧
     (insert_row dest i row).cols = dest.cols ∧
     (∀ i' j', (insert_row dest i row).data i' j'
        = if i' = i ∧ j' < dest.cols then row.data 0 j'
          else dest.data i' j')) ∧
    ((insert_column dest j col).rows = dest.rows ∧
     (insert_column dest j col).cols = dest.cols ∧
     (∀ i' j', (insert_column dest j col).data i' j'
        = if j' = j ∧ i' < dest.rows then col.data i' 0
          else dest.data i' j')) :=
  ⟨⟨rfl, rfl, fun _ _ => rfl⟩, ⟨rfl, rfl, fun _ _ => rfl⟩⟩

/-- C9: `apply_function_elementwise` leaves its input exactly as it
was (the loop writes only into the fresh output), and the output has
the input's shape with `output[i][j] = f(input[i][j])`. -/
theorem map_elementwise_no_mutation (m : Matrix) (f : ℝ → ℝ) :
    (apply_function_elementwise m f).1 = m ∧
    (apply_function_elementwise m f).2.rows = m.rows ∧
    (apply_function_elementwise m f).2.cols = m.cols ∧
    ∀ i j, i < m.rows → j < m.cols →
      (apply_function_elementwise m f).2.data i j = f (m.data i j) := by
  refine ⟨ewOuter_fst f m.cols (List.range m.rows) (m, mk_zero m.rows m.cols),
    (ewOuter_snd_shape f m.cols (List.range m.rows)
      (m, mk_zero m.rows m.cols)).1,
    (ewOuter_snd_shape f m.cols (List.range m.rows)
      (m, mk_zero m.rows m.cols)).2,
    fun i j hi hj => ?_⟩
  rw [show (apply_function_elementwise m f).2.data i j
      = (((List.range m.rows).foldl (ewOuter f m.cols)
          (m, mk_zero m.rows m.cols)).2).data i j from rfl,
    ewOuter_spec f m.cols m.rows (m, mk_zero m.rows m.cols) i j,
    if_pos ⟨hi, hj⟩]

/-- Witness for C9 at the `1×1` matrix holding `4` and `f = (· + 1)`. -/
theorem map_elementwise_no_mutation_witness :
    (apply_function_elementwise (Matrix.mk 1 1 fun _ _ => 4)
        (fun x => x + 1)).1 = Matrix.mk 1 1 (fun _ _ => 4) ∧
    (apply_function_elementwise (Matrix.mk 1 1 fun _ _ => 4)
        (fun x => x + 1)).2.data 0 0 = 5 := by
  obtain ⟨h1, _, _, h4⟩ :=
    map_elementwise_no_mutation (Matrix.mk 1 1 fun _ _ => 4)
      (fun x => x + 1)
  refine ⟨h1, ?_⟩
  rw [h4 0 0 one_pos one_pos]
  norm_num

/-- C10: `apply_softmax_batch` never validates its axis: every axis
value other than `1` behaves exactly like axis `0` and applies the
per-column softmax (column `j` of the output is
`apply_softmax_to_vector` of the extracted column `j`); no axis value
produces an invalid-axis error (the operation always returns a
matrix). -/
theorem softmax_batch_axis_unvalidated (m : Matrix) (axis : Int)
    (h : axis ≠ 1) :
    apply_softmax_batch m axis = apply_softmax_batch m 0 ∧
    (apply_softmax_batch m axis).rows = m.rows ∧
    (apply_softmax_batch m axis).cols = m.cols ∧
    ∀ i j, i < m.rows → j < m.cols →
      ∃ s, apply_softmax_to_vector (extract_column m j) = Except.ok s ∧
        (apply_softmax_batch m axis).data i j = s.data i 0 := by
  have hb : apply_softmax_batch m axis = softmax_cols m := by
    rw [apply_softmax_batch, if_neg h]
  have hb0 : apply_softmax_batch m 0 = softmax_cols m := by
    rw [apply_softmax_batch, if_neg (by norm_num)]
  obtain ⟨hr, hc, hd⟩ := softmax_cols_spec m
  exact ⟨hb.trans hb0.symm, hb ▸ hr, hb ▸ hc, fun i j hi hj =>
    ⟨softmaxVec (extract_column m j),
      apply_softmax_to_vector_extract_column m j,
      by rw [hb, hd i j hi hj]⟩⟩

/-- Witness for C10 at the `1×1` zero matrix with axis `7`. -/
theorem softmax_batch_axis_unvalidated_witness :
    apply_softmax_batch (mk_zero 1 1) 7 = apply_softmax_batch (mk_zero 1 1) 0 ∧
    (apply_softmax_batch (mk_zero 1 1) 7).rows = (mk_zero 1 1).rows ∧
    (apply_softmax_batch (mk_zero 1 1) 7).cols = (mk_zero 1 1).cols ∧
    ∀ i j, i < (mk_zero 1 1).rows → j < (mk_zero 1 1).cols →
      ∃ s, apply_softmax_to_vector (extract_column (mk_zero 1 1) j)
          = Except.ok s ∧
        (apply_softmax_batch (mk_zero 1 1) 7).data i j = s.data i 0 :=
  softmax_batch_axis_unvalidated (mk_zero 1 1) 7 (by norm_num)

end

end NN
